import Mathlib

/-!
Verification of the `leto` ECS core (`src/ecs/src`) against its
natural-language specification.

The Rust sources are shallowly embedded: `TypeId` values become `Nat`,
`BTreeSet<TypeId>` becomes a canonically sorted list, `HashMap` becomes an
association list in insertion order, `Vec` becomes `List`, and panics
(`assert!`, out-of-bounds indexing, `expect`/`unwrap`) become explicit
`Panic` outcomes carrying the state at the moment of the panic.
-/

namespace Leto


/-- Process-stable component type identifier (`std::any::TypeId`), totally
ordered, modelled as `Nat`. -/
abbrev TypeId := Nat

/-- Ordered insertion into a strictly ascending list, as `BTreeSet::insert`
behaves on the embedded representation: inserting an element already present
leaves the set unchanged. -/
def insertSorted (t : TypeId) : List TypeId → List TypeId
  | [] => [t]
  | x :: xs =>
    if t < x then t :: x :: xs
    else if t = x then x :: xs
    else x :: insertSorted t xs

/-- Canonical ordered set of type identifiers
(`TypeBundle(BTreeSet<TypeId>)`, `src/ecs/src/bundle.rs`). -/
structure TypeBundle where
  types : List TypeId
deriving DecidableEq, Repr

/-- `TypeBundle::default()`: the empty set. -/
def TypeBundle.empty : TypeBundle := ⟨[]⟩

/-- The canonical-representation invariant maintained by `BTreeSet`:
strictly ascending order, hence no duplicates. -/
def TypeBundle.Canonical (b : TypeBundle) : Prop :=
  b.types.Sorted (· < ·)

/-- `TypeBundle::add_type`: copy with the given type inserted. -/
def TypeBundle.add_type (b : TypeBundle) (t : TypeId) : TypeBundle :=
  ⟨insertSorted t b.types⟩

/-- `TypeBundle::remove_type`: copy with the given type removed. -/
def TypeBundle.remove_type (b : TypeBundle) (t : TypeId) : TypeBundle :=
  ⟨b.types.erase t⟩

/-- `TypeBundle::contains(other)`: superset test (`is_superset`). -/
def TypeBundle.contains (b other : TypeBundle) : Bool :=
  other.types.all (fun t => decide (t ∈ b.types))

/-- Building a `BTreeSet` by collecting an iterator of keys
(`types.keys().cloned().collect()`). -/
def TypeBundle.fromKeys (l : List TypeId) : TypeBundle :=
  ⟨l.foldr insertSorted []⟩

/-! ### Panics and stateful results -/

/-- The distinct ways the Rust code can abort: a failed `assert!`, an
out-of-bounds index, a failed `expect`, a failed `unwrap`. -/
inductive Panic where
  | assertFailed
  | indexOutOfBounds
  | expectFailed
  | unwrapFailed
deriving DecidableEq, Repr

/-- Outcome of a stateful operation: success, a returned error, or a panic.
The carried state is the state at the moment the operation finished or
panicked, which is what a caller catching the unwind would observe. -/
inductive Res (ε σ α : Type) where
  | ok (a : α) (s : σ)
  | err (e : ε) (s : σ)
  | panic (p : Panic) (s : σ)
deriving DecidableEq, Repr

/-- The final state carried by a `Res`, whatever the outcome. -/
def Res.state {ε σ α : Type} : Res ε σ α → σ
  | .ok _ s => s
  | .err _ s => s
  | .panic _ s => s

/-- Whether a `Res` is a success. -/
def Res.isOk {ε σ α : Type} : Res ε σ α → Bool
  | .ok _ _ => true
  | _ => false

/-! ### Entity registry (`src/ecs/src/entity.rs`) -/

/-- `EntityId`: an index and a generation (both `u32`). -/
structure EntityId where
  id : Nat
  generation : Nat
deriving DecidableEq, Repr

/-- `Location`: archetype index and row. -/
structure Location where
  archetype : Nat
  row : Nat
deriving DecidableEq, Repr

/-- `Entity`: a registry slot holding a generation and an optional location. -/
structure Entity where
  generation : Nat
  location : Option Location
deriving DecidableEq, Repr

/-- `EntityStore`: slot vector, freelist of reusable indices, total count. -/
structure EntityStore where
  entities : List Entity
  freed : List Nat
  count : Nat
deriving DecidableEq, Repr

/-- `EntityError` (`src/ecs/src/errors.rs`). -/
inductive EntityError where
  | tooManyEntities
  | freedListTooSmall
  | notFound
  | wrongGen
  | alreadyFreed
deriving DecidableEq, Repr

/-- `u32::MAX`. -/
def u32Max : Nat := 4294967295

/-- `EntityStore::default()`. -/
def EntityStore.default : EntityStore := ⟨[], [], 0⟩

/-- `EntityStore::entity_status`: location of a live slot, with error
discrimination; mutates nothing. -/
def EntityStore.entity_status (s : EntityStore) (id : EntityId) :
    Except EntityError (Option Location) :=
  match s.entities.get? id.id with
  | none => .error .notFound
  | some e =>
    if id.generation = e.generation then .ok e.location
    else .error .wrongGen

/-- `EntityStore::free`: clears the location, bumps the generation and pushes
the index onto the freelist, returning the old location. -/
def EntityStore.free (s : EntityStore) (id : EntityId) :
    Except EntityError (Location × EntityStore) :=
  match s.entities.get? id.id with
  | none => .error .notFound
  | some e =>
    if id.generation = e.generation then
      match e.location with
      | none => .error .alreadyFreed
      | some loc =>
        .ok (loc,
          { s with
            entities := s.entities.set id.id ⟨e.generation + 1, none⟩,
            freed := s.freed ++ [id.id] })
    else .error .wrongGen

/-- `EntityStore::set_location`: overwrites the location, returning the old
one; the source `unwrap`s the slot lookup, so a bad id is a panic. -/
def EntityStore.set_location (s : EntityStore) (id : EntityId)
    (loc : Location) : Res EntityError EntityStore (Option Location) :=
  match s.entities.get? id.id with
  | none => .panic .unwrapFailed s
  | some e =>
    if id.generation = e.generation then
      .ok e.location
        { s with entities := s.entities.set id.id ⟨e.generation, some loc⟩ }
    else .panic .unwrapFailed s

/-- `EntityStore::get_new_id`: pop the freelist (reusing the stored
generation) or append a fresh slot; errors once `u32::MAX` ids exist. -/
def EntityStore.get_new_id (s : EntityStore) :
    Res EntityError EntityStore EntityId :=
  match s.freed.getLast? with
  | some i =>
    let s1 := { s with freed := s.freed.dropLast }
    match s1.entities.get? i with
    | none => .panic .indexOutOfBounds s1
    | some e => .ok ⟨i, e.generation⟩ s1
  | none =>
    if s.count < u32Max then
      .ok ⟨s.count, 0⟩
        { s with count := s.count + 1, entities := s.entities ++ [⟨0, none⟩] }
    else .err .tooManyEntities s

/-- `EntityStore::seed_new_ids`: extend the slot vector by `count` fresh
slots via `checked_add`; on `u32` overflow fail without mutating. -/
def EntityStore.seed_new_ids (s : EntityStore) (count : Nat) :
    Except EntityError (List Nat × EntityStore) :=
  if s.count + count ≤ u32Max then
    .ok (List.range' s.count count,
      { s with
        count := s.count + count,
        entities := s.entities ++ List.replicate count ⟨0, none⟩ })
  else .error .tooManyEntities

/-- `EntityStore::get_new_ids`: drain up to `count` indices from the end of
the freelist, then seed the remainder as fresh slots. The drain happens
before the fallible seeding. -/
def EntityStore.get_new_ids (s : EntityStore) (count : Nat) :
    Res EntityError EntityStore (List EntityId) :=
  let free_count := min count s.freed.length
  let drained := s.freed.drop (s.freed.length - free_count)
  let s1 := { s with freed := s.freed.take (s.freed.length - free_count) }
  match drained.mapM
      (fun i => (s1.entities.get? i).map (fun e => EntityId.mk i e.generation)) with
  | none => .panic .indexOutOfBounds s1
  | some ids =>
    if free_count < count then
      match s1.seed_new_ids (count - free_count) with
      | .error e => .err e s1
      | .ok (rng, s2) => .ok (ids ++ rng.map (fun i => EntityId.mk i 0)) s2
    else .ok ids s1

/-- The concrete store exhibiting the non-atomicity of `get_new_ids`: one
freed index, slot count already at `u32::MAX`. -/
def fullStore : EntityStore := ⟨List.replicate 6 ⟨0, none⟩, [5], u32Max⟩

/-! ### Association lists (embedding of `HashMap`, iteration in insertion
order, which for the world's maps is creation order) -/

/-- `HashMap::get`. -/
def findA {κ α : Type} [DecidableEq κ] : List (κ × α) → κ → Option α
  | [], _ => none
  | (k1, v) :: rest, k => if k = k1 then some v else findA rest k

/-- `HashMap::insert`: replace in place or append. -/
def insertA {κ α : Type} [DecidableEq κ] : List (κ × α) → κ → α → List (κ × α)
  | [], k, v => [(k, v)]
  | (k1, v1) :: rest, k, v =>
    if k = k1 then (k, v) :: rest else (k1, v1) :: insertA rest k v

/-- `HashMap::remove`: take out a binding, returning its value. -/
def removeA {κ α : Type} [DecidableEq κ] :
    List (κ × α) → κ → Option (α × List (κ × α))
  | [], _ => none
  | (k1, v1) :: rest, k =>
    if k = k1 then some (v1, rest)
    else (removeA rest k).map (fun p => (p.1, (k1, v1) :: p.2))

/-- `Vec::swap_remove`: replace index `i` by the last element and pop;
out-of-range is a panic (`none`). -/
def swapRemove {α : Type} (l : List α) (i : Nat) : Option (α × List α) :=
  match l.get? i, l.getLast? with
  | some x, some last => some (x, (l.set i last).dropLast)
  | _, _ => none

/-! ### Components and bundles (`src/ecs/src/bundle.rs`,
`src/ecs/src/component.rs`) -/

/-- `StoreError` variants used by the bundle and column code. -/
inductive StoreError where
  | typeNotFound
  | cannotCastToType
  | mismatchedComponentTypes
deriving DecidableEq, Repr

/-- `ComponentBox`: a type-erased component value carrying its `TypeId`
(`inner_type_id`); the payload is abstracted to a `Nat`. -/
structure ComponentBox where
  tid : TypeId
  val : Nat
deriving DecidableEq, Repr

/-- `ComponentBundle`: `HashMap<TypeId, usize>` index plus a component
vector. -/
structure ComponentBundle where
  index : List (TypeId × Nat)
  components : List ComponentBox
deriving DecidableEq, Repr

/-- `ComponentBundle::default()`. -/
def ComponentBundle.default : ComponentBundle := ⟨[], []⟩

/-- `ComponentBundle::insert` (same writes as `insert_box`): upsert
`type_id → index.len()` (length read before the insert) and push the
component unconditionally. -/
def ComponentBundle.insert (b : ComponentBundle) (c : ComponentBox) :
    ComponentBundle :=
  { index := insertA b.index c.tid b.index.length,
    components := b.components ++ [c] }

/-- A bundle built by the public builder: `default()` followed by a chain of
`insert` calls, one per component. -/
def ComponentBundle.ofList (cs : List ComponentBox) : ComponentBundle :=
  cs.foldl ComponentBundle.insert ComponentBundle.default

/-- `ComponentBundle::types`: collect the index keys into a `BTreeSet`. -/
def ComponentBundle.types (b : ComponentBundle) : TypeBundle :=
  TypeBundle.fromKeys (b.index.map Prod.fst)

/-- `ComponentBundle::remove`: read the last component's type (panicking if
the bundle is empty), take the binding out of the index (error if absent),
rebind the last component's type to the vacated position and swap-remove. -/
def ComponentBundle.removeType (b : ComponentBundle) (t : TypeId) :
    Res StoreError ComponentBundle ComponentBox :=
  match b.components.getLast? with
  | none => .panic .expectFailed b
  | some lastComp =>
    match removeA b.index t with
    | none => .err .typeNotFound b
    | some (idx, index1) =>
      let index2 := insertA index1 lastComp.tid idx
      match swapRemove b.components idx with
      | none => .panic .indexOutOfBounds { b with index := index2 }
      | some (moved, comps2) =>
        .ok moved { index := index2, components := comps2 }

/-- `ComponentStore`: one dense column of a single component type. -/
structure ComponentStore where
  tid : TypeId
  data : List Nat
deriving DecidableEq, Repr

/-- `ComponentStore::new(comp)`: a fresh column seeded with one value. -/
def ComponentStore.new (c : ComponentBox) : ComponentStore := ⟨c.tid, [c.val]⟩

/-- `ComponentStore::push`: append when the boxed type matches the column
type, otherwise fail (the downcast error). -/
def ComponentStore.push (st : ComponentStore) (c : ComponentBox) :
    Option ComponentStore :=
  if c.tid = st.tid then some ⟨st.tid, st.data ++ [c.val]⟩ else none

/-- `ComponentStore::migrate`: swap-remove `row` from this column and push
it onto the target column; fails if the target column's type differs or the
row is out of range. -/
def ComponentStore.migrateRow (st : ComponentStore) (row : Nat)
    (target : ComponentStore) : Option (ComponentStore × ComponentStore) :=
  match swapRemove st.data row with
  | none => none
  | some (v, d2) =>
    if st.tid = target.tid then
      some (⟨st.tid, d2⟩, ⟨target.tid, target.data ++ [v]⟩)
    else none

/-! ### Archetype (`src/ecs/src/archetype.rs`) -/

/-- `Archetype`: type→column index, columns, row-parallel entity vector and
the edge cache. The field shapes follow `archetype.rs` except `edges`, which
is modelled from the spec (§4.2): `World::migrate` stores the neighbour
archetype *index* under the delta type, while the stale `ArchetypeEdge` enum
in `archetype.rs` predates that. -/
structure Archetype where
  index : List (TypeId × Nat)
  storage : List ComponentStore
  entities : List EntityId
  edges : List (TypeId × Nat)
deriving DecidableEq, Repr

/-- `Archetype::default()`. -/
def Archetype.default : Archetype := ⟨[], [], [], []⟩

/-- `Archetype::new(bundle, entity_id)`: one column per component, index
entries `type_id → position`, entity vector `[entity]`. -/
def Archetype.new (bundle : ComponentBundle) (e : EntityId) : Archetype :=
  { index := bundle.components.enum.foldl
      (fun acc p => insertA acc p.2.tid p.1) [],
    storage := bundle.components.map ComponentStore.new,
    entities := [e],
    edges := [] }

/-- `Archetype::types()`: collect the index keys. -/
def Archetype.types (a : Archetype) : TypeBundle :=
  TypeBundle.fromKeys (a.index.map Prod.fst)

/-- Modelled from the spec: `Archetype::has_type`, called by `World::migrate`
but absent from `src/ecs/src/archetype.rs`; §4.4 requires the membership
test `delta_type ∈ schema(src)`. -/
def Archetype.has_type (a : Archetype) (t : TypeId) : Bool :=
  (findA a.index t).isSome

/-- The loop body of `Archetype::add`: push each component into the column
the index names for its type; a missing column or a type mismatch is an
`expect` panic. -/
def Archetype.pushComps : Archetype → List ComponentBox →
    Except (Panic × Archetype) Archetype
  | a, [] => .ok a
  | a, c :: rest =>
    match findA a.index c.tid with
    | none => .error (.expectFailed, a)
    | some idx =>
      match a.storage.get? idx with
      | none => .error (.indexOutOfBounds, a)
      | some st =>
        match st.push c with
        | none => .error (.expectFailed, a)
        | some st2 =>
          Archetype.pushComps { a with storage := a.storage.set idx st2 } rest

/-- `Archetype::add(bundle, entity_id)`: row is the entity count before the
push; every component goes into its column, then the entity is appended. -/
def Archetype.add (a : Archetype) (bundle : ComponentBundle) (e : EntityId) :
    Res Empty Archetype Nat :=
  let row := a.entities.length
  match a.pushComps bundle.components with
  | .error (p, a1) => .panic p a1
  | .ok a1 => .ok row { a1 with entities := a1.entities ++ [e] }

/-- `Archetype::get_last_entity`: reads `entities[entities.len()]` — one
past the end — so the lookup never yields an element. -/
def Archetype.get_last_entity (a : Archetype) : Option EntityId :=
  a.entities.get? a.entities.length

/-- The loop body of `Archetype::remove`: swap-remove `row` from each listed
column. -/
def Archetype.removeCols : Archetype → List Nat → Nat →
    Except (Panic × Archetype) Archetype
  | a, [], _ => .ok a
  | a, idx :: rest, row =>
    match a.storage.get? idx with
    | none => .error (.indexOutOfBounds, a)
    | some st =>
      match swapRemove st.data row with
      | none => .error (.indexOutOfBounds, a)
      | some (_, d2) =>
        Archetype.removeCols
          { a with storage := a.storage.set idx ⟨st.tid, d2⟩ } rest row

/-- `Archetype::remove(row)`: read the supposed last entity first (the
`get_last_entity` bug makes this an unconditional index panic), then
swap-remove `row` from every column and from `entities`. -/
def Archetype.remove (a : Archetype) (row : Nat) :
    Res Empty Archetype EntityId :=
  match a.get_last_entity with
  | none => .panic .indexOutOfBounds a
  | some ent =>
    match a.removeCols (a.index.map Prod.snd) row with
    | .error (p, a1) => .panic p a1
    | .ok a1 =>
      match swapRemove a1.entities row with
      | none => .panic .indexOutOfBounds a1
      | some (_, es) => .ok ent { a1 with entities := es }

/-- Modelled from the spec: `Migration = Add(ComponentBox) |
Remove(ComponentType)` (§6); `World::migrate` matches on it but the enum is
absent from `src/ecs/src/archetype.rs`. -/
inductive Migration where
  | add (comp : ComponentBox)
  | remove (t : TypeId)
deriving DecidableEq, Repr

/-- `Migration::is_add`. -/
def Migration.is_add : Migration → Bool
  | .add _ => true
  | .remove _ => false

/-- The delta type computed by the `match` at the top of `World::migrate`. -/
def Migration.newType : Migration → TypeId
  | .add comp => comp.tid
  | .remove t => t

/-- The loop body of `Archetype::migrate_add`: walk the source index and
migrate each column's row into the matching target column. -/
def Archetype.migrateCols : Archetype → Archetype → List (TypeId × Nat) →
    Nat → Except (Panic × Archetype × Archetype) (Archetype × Archetype)
  | a, t, [], _ => .ok (a, t)
  | a, t, (tid, idx) :: rest, row =>
    match a.storage.get? idx with
    | none => .error (.indexOutOfBounds, a, t)
    | some st =>
      match findA t.index tid with
      | none => .error (.expectFailed, a, t)
      | some tidx =>
        match t.storage.get? tidx with
        | none => .error (.indexOutOfBounds, a, t)
        | some tst =>
          match st.migrateRow row tst with
          | none => .error (.expectFailed, a, t)
          | some (st2, tst2) =>
            Archetype.migrateCols
              { a with storage := a.storage.set idx st2 }
              { t with storage := t.storage.set tidx tst2 } rest row

/-- `Archetype::migrate_add(row, target, comp)`: read the supposed last
entity (the `get_last_entity` bug panics here), move the entity row, walk
the source columns into the target, then push the added component. -/
def Archetype.migrate_add (a target : Archetype) (row : Nat)
    (comp : ComponentBox) :
    Except (Panic × Archetype × Archetype)
      (EntityId × Nat × Archetype × Archetype) :=
  match a.get_last_entity with
  | none => .error (.indexOutOfBounds, a, target)
  | some moved =>
    let target_row := target.entities.length
    match swapRemove a.entities row with
    | none => .error (.indexOutOfBounds, a, target)
    | some (current, es) =>
      let a1 := { a with entities := es }
      let t1 := { target with entities := target.entities ++ [current] }
      match Archetype.migrateCols a1 t1 a1.index row with
      | .error e => .error e
      | .ok (a2, t2) =>
        match findA t2.index comp.tid with
        | none => .error (.expectFailed, a2, t2)
        | some tidx =>
          match t2.storage.get? tidx with
          | none => .error (.indexOutOfBounds, a2, t2)
          | some tst =>
            match tst.push comp with
            | none => .error (.expectFailed, a2, t2)
            | some tst2 =>
              .ok (moved, target_row, a2,
                { t2 with storage := t2.storage.set tidx tst2 })

/-- The loop body of `Archetype::migrate_remove`: walk the target index and
migrate each named column's row from the source into the target. -/
def Archetype.migrateColsByTarget : Archetype → Archetype →
    List (TypeId × Nat) → Nat →
    Except (Panic × Archetype × Archetype) (Archetype × Archetype)
  | a, t, [], _ => .ok (a, t)
  | a, t, (tid, idx) :: rest, row =>
    match findA a.index tid with
    | none => .error (.expectFailed, a, t)
    | some sidx =>
      match a.storage.get? sidx with
      | none => .error (.indexOutOfBounds, a, t)
      | some st =>
        match t.storage.get? idx with
        | none => .error (.indexOutOfBounds, a, t)
        | some tst =>
          match st.migrateRow row tst with
          | none => .error (.expectFailed, a, t)
          | some (st2, tst2) =>
            Archetype.migrateColsByTarget
              { a with storage := a.storage.set sidx st2 }
              { t with storage := t.storage.set idx tst2 } rest row

/-- `Archetype::migrate_remove(row, target, type_id)`: as `migrate_add` but
walking the target schema, then swap-removing and discarding the removed
type's value from the source column. -/
def Archetype.migrate_remove (a target : Archetype) (row : Nat)
    (t : TypeId) :
    Except (Panic × Archetype × Archetype)
      (EntityId × Nat × Archetype × Archetype) :=
  match a.get_last_entity with
  | none => .error (.indexOutOfBounds, a, target)
  | some moved =>
    let target_row := target.entities.length
    match swapRemove a.entities row with
    | none => .error (.indexOutOfBounds, a, target)
    | some (current, es) =>
      let a1 := { a with entities := es }
      let t1 := { target with entities := target.entities ++ [current] }
      match Archetype.migrateColsByTarget a1 t1 t1.index row with
      | .error e => .error e
      | .ok (a2, t2) =>
        match findA a2.index t with
        | none => .error (.expectFailed, a2, t2)
        | some sidx =>
          match a2.storage.get? sidx with
          | none => .error (.indexOutOfBounds, a2, t2)
          | some st =>
            match swapRemove st.data row with
            | none => .error (.indexOutOfBounds, a2, t2)
            | some (_, d2) =>
              .ok (moved, target_row,
                { a2 with storage := a2.storage.set sidx ⟨st.tid, d2⟩ }, t2)

/-- Modelled from the spec: the `Archetype::migrate(target, row, op)` called
by `World::migrate` is absent from `src/ecs/src/archetype.rs`; §4.2's
`migrate_row_out` dispatches the Add case to the shared-column walk plus
push (`migrate_add`) and the Remove case to the target-column walk plus
discard (`migrate_remove`), both present in the source. -/
def Archetype.migrate (a target : Archetype) (row : Nat) (op : Migration) :
    Except (Panic × Archetype × Archetype)
      (EntityId × Nat × Archetype × Archetype) :=
  match op with
  | .add comp => a.migrate_add target row comp
  | .remove t => a.migrate_remove target row t

/-- The loop body of `Archetype::migrate_to_bundle`: swap-remove each
column's row, boxing the values into a bundle. -/
def Archetype.collectCols : Archetype → ComponentBundle → List Nat → Nat →
    Except (Panic × Archetype) (ComponentBundle × Archetype)
  | a, b, [], _ => .ok (b, a)
  | a, b, idx :: rest, row =>
    match a.storage.get? idx with
    | none => .error (.indexOutOfBounds, a)
    | some st =>
      match swapRemove st.data row with
      | none => .error (.indexOutOfBounds, a)
      | some (v, d2) =>
        Archetype.collectCols
          { a with storage := a.storage.set idx ⟨st.tid, d2⟩ }
          (b.insert ⟨st.tid, v⟩) rest row

/-- `Archetype::migrate_to_bundle(row, op)`: collect the row's components
into a bundle, then read `get_last_entity` (the off-by-one panic) and
swap-remove the entity row. The two-argument form called by `World::migrate`
is absent from `archetype.rs`; its op application is modelled from the spec
(§4.2): Add pushes the new component into the collected bundle, Remove drops
the removed type's binding from it. -/
def Archetype.migrate_to_bundle (a : Archetype) (row : Nat) (op : Migration) :
    Except (Panic × Archetype) (EntityId × ComponentBundle × Archetype) :=
  match a.collectCols ComponentBundle.default (a.index.map Prod.snd) row with
  | .error e => .error e
  | .ok (b1, a1) =>
    let b2 := match op with
      | .add c => b1.insert c
      | .remove t =>
        match b1.removeType t with
        | .ok _ b => b
        | .err _ b => b
        | .panic _ b => b
    match a1.get_last_entity with
    | none => .error (.indexOutOfBounds, a1)
    | some ent =>
      match swapRemove a1.entities row with
      | none => .error (.indexOutOfBounds, a1)
      | some (_, es) => .ok (ent, b2, { a1 with entities := es })

/-! ### World (`src/ecs/src/world.rs`) -/

/-- `EcsError`: the only variant is `Placeholder`, and every `From`
conversion in `errors.rs` collapses to it. -/
inductive EcsError where
  | placeholder
deriving DecidableEq, Repr

/-- `World`: primary schema index, archetype vector, entity registry, and
the inclusive-match query cache. -/
structure World where
  index : List (TypeBundle × Nat)
  archetypes : List Archetype
  entities : EntityStore
  inclusive_index : List (TypeBundle × List Nat)
deriving DecidableEq, Repr

/-- `World::init()`: one degenerate archetype with the empty schema at
index 0; the inclusive cache starts empty. -/
def World.init : World :=
  ⟨[(TypeBundle.empty, 0)], [Archetype.default], EntityStore.default, []⟩

/-- `World::get_archetype_id`. -/
def World.get_archetype_id (w : World) (types : TypeBundle) : Option Nat :=
  findA w.index types

/-- `World::get_archetypes_inclusive`, restricted to the cached id list it
reads: a missing cache entry yields the default empty vector
(`unwrap_or_default`); the receiver is `&self`, so no entry is ever
created here. -/
def World.get_archetypes_inclusive_ids (w : World) (types : TypeBundle) :
    List Nat :=
  (findA w.inclusive_index types).getD []

/-- `World::get_archetypes_inclusive`: the cached ids mapped through the
archetype vector; an out-of-range id would be an index panic (`none`). -/
def World.get_archetypes_inclusive (w : World) (types : TypeBundle) :
    Option (List Archetype) :=
  (w.get_archetypes_inclusive_ids types).mapM (fun i => w.archetypes.get? i)

/-- `World::update_inclusive_index`: append the new archetype to every
cached entry whose key its schema contains, then write a fresh entry for
the schema itself from the primary index. -/
def World.update_inclusive_index (w : World) (types : TypeBundle)
    (archetype_id : Nat) : World :=
  let inc1 := w.inclusive_index.map
    (fun p => if types.contains p.1 then (p.1, p.2 ++ [archetype_id]) else p)
  let ids := ((w.index.filter (fun p => p.1.contains types)).map Prod.snd)
  { w with inclusive_index := insertA inc1 types ids }

/-- `World::push_archetype`: register the schema in the primary index, push
the archetype, update the inclusive cache; returns the new id. -/
def World.push_archetype (w : World) (bundle : ComponentBundle)
    (e : EntityId) : Nat × World :=
  let types := bundle.types
  let archetype_id := w.archetypes.length
  let w1 := { w with
    index := insertA w.index types archetype_id,
    archetypes := w.archetypes ++ [Archetype.new bundle e] }
  (archetype_id, w1.update_inclusive_index types archetype_id)

/-- `World::mutate_archetypes(first, second)`: `assert!(first < second)`,
then hand out the two archetypes via `split_at_mut`. -/
def World.mutate_archetypes (w : World) (first second : Nat) :
    Except Panic (Archetype × Archetype) :=
  if first < second then
    match w.archetypes.get? first, w.archetypes.get? second with
    | some a, some b => .ok (a, b)
    | _, _ => .error .indexOutOfBounds
  else .error .assertFailed

/-- The two `edges.insert` writes `World::migrate` performs after resolving
a target archetype without a cached edge. -/
def World.insert_edges (w : World) (source_idx target_idx : Nat)
    (t : TypeId) : Except (Panic × World) World :=
  match w.archetypes.get? source_idx with
  | none => .error (.indexOutOfBounds, w)
  | some sa =>
    let sa1 : Archetype := { sa with edges := insertA sa.edges t target_idx }
    let w1 := { w with archetypes := w.archetypes.set source_idx sa1 }
    match w1.archetypes.get? target_idx with
    | none => .error (.indexOutOfBounds, w1)
    | some ta =>
      let ta1 : Archetype := { ta with edges := insertA ta.edges t source_idx }
      .ok { w1 with archetypes := w1.archetypes.set target_idx ta1 }

/-- `World::spawn`: allocate an id, find or create the archetype for the
bundle's types, record the location. -/
def World.spawn (w : World) (bundle : ComponentBundle) :
    Res EcsError World EntityId :=
  match w.entities.get_new_id with
  | .panic p s => .panic p { w with entities := s }
  | .err _ s => .err .placeholder { w with entities := s }
  | .ok entity s =>
    let w1 := { w with entities := s }
    let finish : World → Location → Res EcsError World EntityId :=
      fun w2 loc =>
        match w2.entities.set_location entity loc with
        | .panic p s2 => .panic p { w2 with entities := s2 }
        | .err _ s2 => .err .placeholder { w2 with entities := s2 }
        | .ok _ s2 => .ok entity { w2 with entities := s2 }
    let types := bundle.types
    match w1.get_archetype_id types with
    | some archetype_id =>
      match w1.archetypes.get? archetype_id with
      | none => .panic .indexOutOfBounds w1
      | some a =>
        match a.add bundle entity with
        | .panic p a1 =>
          .panic p { w1 with archetypes := w1.archetypes.set archetype_id a1 }
        | .err e _ => e.elim
        | .ok row a1 =>
          finish { w1 with archetypes := w1.archetypes.set archetype_id a1 }
            ⟨archetype_id, row⟩
    | none =>
      let pr := w1.push_archetype bundle entity
      finish pr.2 ⟨pr.1, 0⟩

/-- The `assert!`ed preconditions at the top of `World::migrate`: for Add
the delta type must be absent from the source schema, for Remove present. -/
def Migration.precheck (op : Migration) (srcA : Archetype) : Bool :=
  match op with
  | .add comp => !(srcA.has_type comp.tid)
  | .remove t => srcA.has_type t

/-- The registry-update tail of `World::migrate`: record the migrated
entity at its new location and the moved entity at the vacated one; both
`set_location` calls `unwrap`, so a bad id is a panic. -/
def World.migrate_finish (w1 : World) (entity : EntityId)
    (location : Location) (target_idx new_row : Nat) (moved : EntityId) :
    Res EcsError World Unit :=
  match w1.entities.set_location entity ⟨target_idx, new_row⟩ with
  | .panic p s => .panic p { w1 with entities := s }
  | .err _ s => .err .placeholder { w1 with entities := s }
  | .ok _ s =>
    let w2 := { w1 with entities := s }
    match w2.entities.set_location moved location with
    | .panic p s2 => .panic p { w2 with entities := s2 }
    | .err _ s2 => .err .placeholder { w2 with entities := s2 }
    | .ok _ s2 => .ok () { w2 with entities := s2 }

/-- The shared move step of `World::migrate` when the target archetype
already exists: `mutate_archetypes(source, target)` (with its
`first < second` assert), then `source.migrate(target, row, op)`, writing
both archetypes back; yields `(new_row, moved)`. -/
def World.migrate_via_pair (w : World) (source_idx target_idx row : Nat)
    (op : Migration) : Res EcsError World (Nat × EntityId) :=
  match w.mutate_archetypes source_idx target_idx with
  | .error p => .panic p w
  | .ok (src, tgt) =>
    match src.migrate tgt row op with
    | .error (p, s2, t2) =>
      .panic p { w with archetypes :=
        (w.archetypes.set source_idx s2).set target_idx t2 }
    | .ok (moved, new_row, s2, t2) =>
      .ok (new_row, moved) { w with archetypes :=
        (w.archetypes.set source_idx s2).set target_idx t2 }

/-- `World::migrate`: resolve the location, `assert!` the delta-type
precondition, find the target archetype via the edge cache, the primary
index or a fresh push, move the row, then update the registry for the
migrated and the moved entity. -/
def World.migrate (w : World) (entity : EntityId) (op : Migration) :
    Res EcsError World Unit :=
  match w.entities.entity_status entity with
  | .error _ => .err .placeholder w
  | .ok none => .err .placeholder w
  | .ok (some location) =>
    let source_idx := location.archetype
    match w.archetypes.get? source_idx with
    | none => .panic .indexOutOfBounds w
    | some srcA =>
      if op.precheck srcA then
        let new_type : TypeId := op.newType
        match findA srcA.edges new_type with
        | some target_idx =>
          match w.migrate_via_pair source_idx target_idx location.row op with
          | .panic p w1 => .panic p w1
          | .err er w1 => .err er w1
          | .ok pr w1 =>
            w1.migrate_finish entity location target_idx pr.1 pr.2
        | none =>
          let old_bundle := srcA.types
          let type_bundle :=
            if op.is_add then old_bundle.add_type new_type
            else old_bundle.remove_type new_type
          match w.get_archetype_id type_bundle with
          | some target_idx =>
            match w.migrate_via_pair source_idx target_idx location.row op with
            | .panic p w1 => .panic p w1
            | .err er w1 => .err er w1
            | .ok pr w1 =>
              match w1.insert_edges source_idx target_idx new_type with
              | .error (p, w2) => .panic p w2
              | .ok w2 => w2.migrate_finish entity location target_idx pr.1 pr.2
          | none =>
            match srcA.migrate_to_bundle location.row op with
            | .error (p, a1) =>
              .panic p { w with archetypes := w.archetypes.set source_idx a1 }
            | .ok (moved, bundle, a1) =>
              let w1 := { w with archetypes := w.archetypes.set source_idx a1 }
              let pr := w1.push_archetype bundle entity
              match pr.2.insert_edges source_idx pr.1 new_type with
              | .error (p, w3) => .panic p w3
              | .ok w3 => w3.migrate_finish entity location pr.1 0 moved
      else .panic .assertFailed w

/-- `World::kill`: free the id in the registry first, then remove the row
from its archetype; the value returned by `Archetype::remove` (the moved
entity) is discarded. -/
def World.kill (w : World) (entity : EntityId) : Res EcsError World Unit :=
  match w.entities.free entity with
  | .error _ => .err .placeholder w
  | .ok (location, s) =>
    let w1 := { w with entities := s }
    match w1.archetypes.get? location.archetype with
    | none => .panic .indexOutOfBounds w1
    | some a =>
      match a.remove location.row with
      | .panic p a1 =>
        .panic p { w1 with archetypes :=
          w1.archetypes.set location.archetype a1 }
      | .err e _ => e.elim
      | .ok _ a1 =>
        .ok () { w1 with archetypes :=
          w1.archetypes.set location.archetype a1 }

/-! ### Concrete fixtures -/

/-- A component value of type 1. -/
def boxA : ComponentBox := ⟨1, 10⟩

/-- A component value of type 2. -/
def boxB : ComponentBox := ⟨2, 20⟩

/-- A bundle holding one component of type 1. -/
def bundleA : ComponentBundle := ComponentBundle.ofList [boxA]

/-- A bundle holding components of types 1 and 2. -/
def bundleAB : ComponentBundle := ComponentBundle.ofList [boxA, boxB]

/-- A bundle holding two components of the same type 1. -/
def dupBundle : ComponentBundle := ComponentBundle.ofList [⟨1, 10⟩, ⟨1, 11⟩]

/-- The first id spawned into a fresh world. -/
def eA : EntityId := ⟨0, 0⟩

/-- The second id spawned into a fresh world. -/
def ePair : EntityId := ⟨1, 0⟩

/-- `init` followed by `spawn(bundleA)`: archetypes `{}` and `{1}`. -/
def worldA : World := (World.spawn World.init bundleA).state

/-- `worldA` with a second entity spawned into the `{1}` archetype. -/
def worldPair : World := (World.spawn worldA bundleA).state

/-- `worldA` followed by `spawn(bundleAB)`: archetypes `{}`, `{1}`,
`{1, 2}`. -/
def worldAB : World := (World.spawn worldA bundleAB).state

/-- `init` followed by `spawn(bundleAB)`: archetypes `{}` and `{1, 2}`. -/
def worldAB1 : World := (World.spawn World.init bundleAB).state

/-- The state `kill worldA eA` leaves behind when it panics. -/
def killAState : World := (World.kill worldA eA).state

/-- The state `kill worldPair eA` leaves behind when it panics. -/
def killPairState : World := (World.kill worldPair eA).state

/-- The invariant backing P6: the primary index enumerates the archetype
schemas in creation order, and every inclusive-cache entry lists exactly
the archetypes whose schema contains its key, each exactly once. -/
def WorldInv (w : World) : Prop :=
  (w.index.map Prod.snd = List.range w.archetypes.length) ∧
  (∀ Q i, (Q, i) ∈ w.index →
    ∃ a, w.archetypes.get? i = some a ∧ a.types = Q) ∧
  (∀ Q l, findA w.inclusive_index Q = some l →
    l.Nodup ∧ ∀ i, i ∈ l ↔
      ∃ a, w.archetypes.get? i = some a ∧ a.types.contains Q = true)

/-- Worlds reachable from `World::init` through public operations that
return successfully. (`migrate` and `kill` never do — every call panics or
errors — so in practice only `spawn` steps occur; the constructors are
still stated for all three.) -/
inductive Reachable : World → Prop where
  | init : Reachable World.init
  | spawn (w : World) (cs : List ComponentBox) (e : EntityId) (w2 : World) :
      Reachable w →
      World.spawn w (ComponentBundle.ofList cs) = .ok e w2 → Reachable w2
  | migrate (w : World) (e : EntityId) (op : Migration) (w2 : World) :
      Reachable w → World.migrate w e op = .ok () w2 → Reachable w2
  | kill (w : World) (e : EntityId) (w2 : World) :
      Reachable w → World.kill w e = .ok () w2 → Reachable w2

/-! ### Theorems -/

theorem mem_insertSorted (a t : TypeId) (l : List TypeId) :
    a ∈ insertSorted t l ↔ a = t ∨ a ∈ l := by
  induction l with
  | nil => simp [insertSorted]
  | cons x xs ih =>
    by_cases h1 : t < x
    · simp [insertSorted, h1]
    · by_cases h2 : t = x
      · subst h2
        simp [insertSorted, h1]
      · simp [insertSorted, h1, h2, ih]
        tauto

theorem sorted_insertSorted (t : TypeId) (l : List TypeId)
    (h : l.Sorted (· < ·)) : (insertSorted t l).Sorted (· < ·) := by
  induction l with
  | nil => simp [insertSorted]
  | cons x xs ih =>
    rw [List.sorted_cons] at h
    by_cases h1 : t < x
    · simp only [insertSorted, if_pos h1]
      rw [List.sorted_cons]
      refine ⟨?_, ?_⟩
      · intro b hb
        rcases List.mem_cons.mp hb with hb | hb
        · exact hb ▸ h1
        · exact h1.trans (h.1 b hb)
      · rw [List.sorted_cons]; exact h
    · by_cases h2 : t = x
      · simp only [insertSorted, if_neg h1, if_pos h2]
        rw [List.sorted_cons]; exact h
      · simp only [insertSorted, if_neg h1, if_neg h2]
        rw [List.sorted_cons]
        refine ⟨?_, ih h.2⟩
        intro b hb
        rcases (mem_insertSorted b t xs).mp hb with hb | hb
        · subst hb
          exact lt_of_le_of_ne (Nat.le_of_not_lt h1) (Ne.symm h2)
        · exact h.1 b hb

theorem mem_fromKeys (a : TypeId) (l : List TypeId) :
    a ∈ (TypeBundle.fromKeys l).types ↔ a ∈ l := by
  induction l with
  | nil => simp [TypeBundle.fromKeys]
  | cons x xs ih =>
    simp only [TypeBundle.fromKeys, List.foldr_cons]
    rw [mem_insertSorted]
    simp only [TypeBundle.fromKeys] at ih
    rw [ih, List.mem_cons]

theorem sorted_fromKeys (l : List TypeId) :
    (TypeBundle.fromKeys l).types.Sorted (· < ·) := by
  induction l with
  | nil => simp [TypeBundle.fromKeys]
  | cons x xs ih => exact sorted_insertSorted x _ ih

theorem canonical_fromKeys (l : List TypeId) :
    (TypeBundle.fromKeys l).Canonical :=
  sorted_fromKeys l

/-- Two canonical bundles with the same members are equal (set semantics of
`BTreeSet` equality on the canonical representation). -/
theorem TypeBundle.canonical_ext {b c : TypeBundle} (hb : b.Canonical)
    (hc : c.Canonical) (h : ∀ a, a ∈ b.types ↔ a ∈ c.types) : b = c := by
  cases b with
  | mk bl =>
    cases c with
    | mk cl =>
      simp only [TypeBundle.mk.injEq]
      have hb' : bl.Nodup := hb.nodup
      have hc' : cl.Nodup := hc.nodup
      have hperm : bl.Perm cl := (List.perm_ext_iff_of_nodup hb' hc').mpr h
      exact hperm.eq_of_sorted (fun a b _ _ h1 h2 => Nat.le_antisymm h1.le h2.le) hb hc

/-- C9: `add_type` and `remove_type` preserve the canonical representation
(strictly ascending, duplicate-free), and removing an absent type returns a
bundle equal to the input. -/
theorem add_remove_canonical (b : TypeBundle) (t : TypeId)
    (h : b.Canonical) :
    ((b.add_type t).Canonical ∧ (b.add_type t).types.Nodup) ∧
    ((b.remove_type t).Canonical ∧ (b.remove_type t).types.Nodup) ∧
    (t ∉ b.types → b.remove_type t = b) := by
  have hadd : (b.add_type t).Canonical := sorted_insertSorted t b.types h
  have hrem : (b.remove_type t).Canonical :=
    List.Pairwise.sublist (b.types.erase_sublist t) h
  refine ⟨⟨hadd, hadd.nodup⟩, ⟨hrem, hrem.nodup⟩, ?_⟩
  intro hmem
  simp only [TypeBundle.remove_type, List.erase_of_not_mem hmem]

/-- Witness for C9 at a concrete canonical bundle. -/
theorem add_remove_canonical_witness :
    (TypeBundle.mk [1, 3]).Canonical ∧
    (((TypeBundle.mk [1, 3]).add_type 2).Canonical ∧
      ((TypeBundle.mk [1, 3]).add_type 2).types.Nodup) ∧
    (((TypeBundle.mk [1, 3]).remove_type 2).Canonical ∧
      ((TypeBundle.mk [1, 3]).remove_type 2).types.Nodup) ∧
    (2 ∉ (TypeBundle.mk [1, 3]).types →
      (TypeBundle.mk [1, 3]).remove_type 2 = TypeBundle.mk [1, 3]) := by
  have hc : (TypeBundle.mk [1, 3]).Canonical := by
    simp [TypeBundle.Canonical, List.sorted_cons]
  exact ⟨hc, add_remove_canonical (TypeBundle.mk [1, 3]) 2 hc⟩

/-- C7 counterexample: `get_new_ids(2)` on `fullStore` fails with the
out-of-ids error, yet the freed index 5 has been consumed from the freelist,
so the store is not left unchanged as the claim states. -/
theorem get_new_ids_not_atomic :
    EntityStore.get_new_ids fullStore 2 =
      .err .tooManyEntities ⟨List.replicate 6 ⟨0, none⟩, [], u32Max⟩ ∧
    (EntityStore.get_new_ids fullStore 2).state.freed ≠ fullStore.freed := by
  constructor
  · rfl
  · decide

/-- C7 amended: when `get_new_ids` fails it fails with the out-of-ids error
and the failed seeding has created no new slots and left `count` unchanged,
but the freelist has already been drained of `min n freed.length` indices. -/
theorem get_new_ids_err_state (s : EntityStore) (n : Nat)
    (e : EntityError) (s2 : EntityStore)
    (h : EntityStore.get_new_ids s n = .err e s2) :
    e = .tooManyEntities ∧ s2.count = s.count ∧ s2.entities = s.entities ∧
    s2.freed = s.freed.take (s.freed.length - min n s.freed.length) := by
  unfold EntityStore.get_new_ids at h
  simp only at h
  split at h
  · exact absurd h (by simp)
  · split at h
    · rename_i hseed
      split at h
      · rename_i e1 hs
        rcases h with ⟨⟩
        unfold EntityStore.seed_new_ids at hs
        split at hs
        · exact absurd hs (by simp)
        · rcases hs with ⟨⟩
          exact ⟨rfl, rfl, rfl, rfl⟩
      · exact absurd h (by simp)
    · exact absurd h (by simp)

/-- Witness for C7 amended at the concrete failing store. -/
theorem get_new_ids_err_state_witness :
    EntityError.tooManyEntities = .tooManyEntities ∧
    (⟨List.replicate 6 ⟨0, none⟩, [], u32Max⟩ : EntityStore).count =
      fullStore.count ∧
    (⟨List.replicate 6 ⟨0, none⟩, [], u32Max⟩ : EntityStore).entities =
      fullStore.entities ∧
    (⟨List.replicate 6 ⟨0, none⟩, [], u32Max⟩ : EntityStore).freed =
      fullStore.freed.take (fullStore.freed.length - min 2 fullStore.freed.length) :=
  get_new_ids_err_state fullStore 2 .tooManyEntities
    ⟨List.replicate 6 ⟨0, none⟩, [], u32Max⟩ (by rfl)

/-- C3: `Archetype::remove` can never return the moved entity — for every
archetype and every row (in-range or not) it panics immediately, because
`get_last_entity` indexes `entities[entities.len()]`, one past the end. The
spec's `swap_remove_row(row) -> moved_entity` contract is unachievable as
coded. -/
theorem remove_always_panics (a : Archetype) (row : Nat) :
    Archetype.remove a row = .panic .indexOutOfBounds a := by
  have h : a.get_last_entity = none := by
    simp [Archetype.get_last_entity, List.get?_eq_none]
  simp [Archetype.remove, h]

/-- `Archetype::migrate` panics on every call, through `get_last_entity`. -/
theorem archetype_migrate_panics (a target : Archetype) (row : Nat)
    (op : Migration) :
    Archetype.migrate a target row op =
      .error (.indexOutOfBounds, a, target) := by
  have h : a.get_last_entity = none := by
    simp [Archetype.get_last_entity, List.get?_eq_none]
  cases op with
  | add comp => simp [Archetype.migrate, Archetype.migrate_add, h]
  | remove t => simp [Archetype.migrate, Archetype.migrate_remove, h]

/-! ### Helper lemmas -/

theorem get_last_entity_none (a : Archetype) : a.get_last_entity = none := by
  simp [Archetype.get_last_entity, List.get?_eq_none]

theorem remove_panic_eq (a : Archetype) (row : Nat) :
    Archetype.remove a row = .panic .indexOutOfBounds a := by
  simp [Archetype.remove, get_last_entity_none]

theorem migrate_to_bundle_no_ok (a : Archetype) (row : Nat) (op : Migration)
    (r : EntityId × ComponentBundle × Archetype) :
    a.migrate_to_bundle row op ≠ .ok r := by
  unfold Archetype.migrate_to_bundle
  cases h : a.collectCols ComponentBundle.default (a.index.map Prod.snd) row with
  | error e => simp
  | ok pr =>
    obtain ⟨b1, a1⟩ := pr
    simp [get_last_entity_none]

theorem migrate_via_pair_no_ok (w : World) (si ti row : Nat) (op : Migration)
    (pr : Nat × EntityId) (w1 : World) :
    World.migrate_via_pair w si ti row op ≠ .ok pr w1 := by
  unfold World.migrate_via_pair
  cases h : w.mutate_archetypes si ti with
  | error p => simp
  | ok pair =>
    obtain ⟨src, tgt⟩ := pair
    simp [archetype_migrate_panics]

theorem kill_no_ok (w : World) (e : EntityId) :
    (World.kill w e).isOk = false := by
  unfold World.kill
  cases hf : w.entities.free e with
  | error er => simp [Res.isOk]
  | ok pr =>
    obtain ⟨location, s⟩ := pr
    cases hg : (w.archetypes.get? location.archetype) with
    | none =>
      rw [List.get?_eq_getElem?] at hg
      simp [hg, Res.isOk]
    | some a =>
      rw [List.get?_eq_getElem?] at hg
      simp [hg, remove_panic_eq, Res.isOk]

theorem migrate_no_ok (w : World) (e : EntityId) (op : Migration) :
    (World.migrate w e op).isOk = false := by
  unfold World.migrate
  cases hs : w.entities.entity_status e with
  | error er => simp [Res.isOk]
  | ok olo =>
    cases olo with
    | none => simp [Res.isOk]
    | some location =>
      cases hg : w.archetypes.get? location.archetype with
      | none =>
        rw [List.get?_eq_getElem?] at hg
        simp [hg, Res.isOk]
      | some srcA =>
        rw [List.get?_eq_getElem?] at hg
        simp only [List.get?_eq_getElem?, hg]
        split
        · split
          · cases hv : World.migrate_via_pair w location.archetype _ location.row op with
            | ok pr w1 => exact absurd hv (migrate_via_pair_no_ok _ _ _ _ _ _ _)
            | err er w1 => simp [Res.isOk]
            | panic p w1 => simp [Res.isOk]
          · split
            · cases hv : World.migrate_via_pair w location.archetype _ location.row op with
              | ok pr w1 => exact absurd hv (migrate_via_pair_no_ok _ _ _ _ _ _ _)
              | err er w1 => simp [Res.isOk]
              | panic p w1 => simp [Res.isOk]
            · cases hb : srcA.migrate_to_bundle location.row op with
              | error pe => simp [hb, Res.isOk]
              | ok r => exact absurd hb (migrate_to_bundle_no_ok _ _ _ _)
        · simp [Res.isOk]

/-! ### Claim theorems about World operations -/

/-- C2: location consistency cannot survive `kill`. With two entities in
one archetype, `kill(first)` panics (via `get_last_entity`) after the id is
freed; `World::kill` discards `Archetype::remove`'s return value, so no
registry update for a moved entity is ever performed, contrary to the
claim. -/
theorem kill_ignores_moved_entity :
    World.kill worldPair eA = .panic .indexOutOfBounds killPairState ∧
    killPairState.entities.entity_status ePair = .ok (some ⟨1, 1⟩) ∧
    (∃ a, killPairState.archetypes.get? 1 = some a ∧
      a.entities = [eA, ePair]) := by
  refine ⟨by rfl, by rfl, ⟨_, rfl, by rfl⟩⟩

/-- C4: the Add half of the round-trip law already fails: on a world with
one entity of schema `{1}`, `migrate(e, Add(type 2))` panics inside
`migrate_to_bundle` (the `get_last_entity` off-by-one) instead of moving
the entity to the `{1, 2}` archetype. -/
theorem migrate_add_panics_concrete :
    (∃ w1, World.migrate worldA eA (Migration.add boxB) =
      .panic .indexOutOfBounds w1) ∧
    (World.migrate worldA eA (Migration.add boxB)).isOk = false :=
  ⟨⟨_, rfl⟩, rfl⟩

/-- C5 counterexample: `kill` frees the id before touching the row. On a
one-entity world the row removal panics, and at that moment the registry
has already freed the id (generation bumped, location cleared, index on the
freelist) while the row is still present — the reverse of the claimed
order. -/
theorem kill_frees_first_concrete :
    World.kill worldA eA = .panic .indexOutOfBounds killAState ∧
    killAState.entities = ⟨[⟨1, none⟩], [0], 1⟩ ∧
    (∃ a, killAState.archetypes.get? 1 = some a ∧ a.entities = [eA]) := by
  refine ⟨by decide, by decide, ⟨_, rfl, by decide⟩⟩

/-- C5 amended: `kill` first frees the id in the registry and only
afterwards removes the row; whatever the row removal does (here: panics),
the registry retains the freed state, and `kill` never returns
successfully. -/
theorem kill_frees_before_removing (w : World) (id : EntityId)
    (loc : Location) (s1 : EntityStore)
    (h : w.entities.free id = .ok (loc, s1)) :
    (World.kill w id).state.entities = s1 ∧
    (World.kill w id).isOk = false := by
  unfold World.kill
  rw [h]
  cases hg : w.archetypes.get? loc.archetype with
  | none =>
    rw [List.get?_eq_getElem?] at hg
    simp [hg, Res.state, Res.isOk]
  | some a =>
    rw [List.get?_eq_getElem?] at hg
    simp [hg, remove_panic_eq, Res.state, Res.isOk]

/-- Witness for C5 amended at the one-entity world. -/
theorem kill_frees_before_removing_witness :
    worldA.entities.free eA = .ok (⟨1, 0⟩, ⟨[⟨1, none⟩], [0], 1⟩) ∧
    ((World.kill worldA eA).state.entities = ⟨[⟨1, none⟩], [0], 1⟩ ∧
      (World.kill worldA eA).isOk = false) :=
  ⟨by rfl,
    kill_frees_before_removing worldA eA ⟨1, 0⟩ ⟨[⟨1, none⟩], [0], 1⟩
      (by rfl)⟩

/-- C6 counterexample: `migrate(e, Add(c))` with `c`'s type already present
and `migrate(e, Remove(t))` with `t` absent both panic on the `assert!` —
they do not return `AlreadyPresent`/`NotPresent` errors (no such variants
exist; `EcsError` is a placeholder), and the process aborts. -/
theorem migrate_precondition_panics_concrete :
    World.migrate worldA eA (Migration.add ⟨1, 99⟩) =
      .panic .assertFailed worldA ∧
    World.migrate worldA eA (Migration.remove 7) =
      .panic .assertFailed worldA := by
  exact ⟨by decide, by decide⟩

/-- C6 amended: for every live entity, an Add of a type already in the
source schema or a Remove of a type absent from it makes `World::migrate`
panic on the `assert!`, leaving the world untouched. -/
theorem migrate_precondition_asserts (w : World) (e : EntityId)
    (loc : Location) (srcA : Archetype)
    (h1 : w.entities.entity_status e = .ok (some loc))
    (h2 : w.archetypes.get? loc.archetype = some srcA) :
    (∀ c : ComponentBox, srcA.has_type c.tid = true →
      World.migrate w e (.add c) = .panic .assertFailed w) ∧
    (∀ t : TypeId, srcA.has_type t = false →
      World.migrate w e (.remove t) = .panic .assertFailed w) := by
  constructor
  · intro c hc
    unfold World.migrate
    rw [h1]
    simp only [h2, Migration.precheck, hc]
    rfl
  · intro t ht
    unfold World.migrate
    rw [h1]
    simp only [h2, Migration.precheck, ht]
    rfl

/-- Witness for C6 amended on the one-entity world. -/
theorem migrate_precondition_asserts_witness :
    worldA.entities.entity_status eA = .ok (some ⟨1, 0⟩) ∧
    (∃ a, worldA.archetypes.get? 1 = some a ∧ a.has_type 1 = true ∧
      World.migrate worldA eA (.add ⟨1, 99⟩) = .panic .assertFailed worldA) := by
  refine ⟨by rfl, ⟨_, rfl, by decide, ?_⟩⟩
  exact (migrate_precondition_asserts worldA eA ⟨1, 0⟩ _ (by rfl) rfl).1
    ⟨1, 99⟩ (by decide)

/-- C8 counterexample: a bundle containing type 1 twice is not rejected —
`spawn` succeeds (there is no `DuplicateType` error anywhere) and both
values are stored, the second in an orphaned column the archetype's index
no longer references. -/
theorem spawn_no_duplicate_error :
    (World.spawn World.init dupBundle).isOk = true ∧
    (World.spawn World.init dupBundle).state.archetypes.get? 1 =
      some ⟨[(1, 1)], [⟨1, [10]⟩, ⟨1, [11]⟩], [⟨0, 0⟩], []⟩ := by
  exact ⟨by decide, by decide⟩

/-- C10: whenever `World::migrate` resolves a target archetype (via a
cached edge, or via the primary index on an edge miss) whose index is not
strictly greater than the source's, the internal
`assert!(first < second)` in `mutate_archetypes` panics before any part of
the migration happens: the world is returned untouched. -/
theorem migrate_backward_asserts (w : World) (e : EntityId)
    (loc : Location) (srcA : Archetype) (op : Migration) (tgt : Nat)
    (h1 : w.entities.entity_status e = .ok (some loc))
    (h2 : w.archetypes.get? loc.archetype = some srcA)
    (h3 : op.precheck srcA = true)
    (h4 : findA srcA.edges op.newType = some tgt ∨
      (findA srcA.edges op.newType = none ∧
        w.get_archetype_id
          (if op.is_add then srcA.types.add_type op.newType
           else srcA.types.remove_type op.newType) = some tgt))
    (h5 : tgt ≤ loc.archetype) :
    World.migrate w e op = .panic .assertFailed w := by
  have hmv : World.migrate_via_pair w loc.archetype tgt loc.row op =
      .panic .assertFailed w := by
    unfold World.migrate_via_pair World.mutate_archetypes
    rw [if_neg (by omega)]
  unfold World.migrate
  rw [h1]
  simp only [h2, h3, if_pos]
  rcases h4 with h4 | ⟨h4a, h4b⟩
  · simp only [h4, hmv]
  · simp only [h4a, h4b, hmv]

/-- Witness for C10: in `worldAB`, migrating the `{1, 2}` entity
(archetype 2) back by removing type 2 resolves target archetype 1 through
the primary index and panics on the assertion. -/
theorem migrate_backward_asserts_witness :
    worldAB.entities.entity_status ePair = .ok (some ⟨2, 0⟩) ∧
    (∃ srcA, worldAB.archetypes.get? 2 = some srcA ∧
      (Migration.remove 2).precheck srcA = true ∧
      findA srcA.edges 2 = none ∧
      worldAB.get_archetype_id (srcA.types.remove_type 2) = some 1) ∧
    (1 : Nat) ≤ 2 ∧
    World.migrate worldAB ePair (.remove 2) = .panic .assertFailed worldAB := by
  refine ⟨by rfl, ⟨_, rfl, by decide, by rfl, by rfl⟩, by decide, ?_⟩
  exact migrate_backward_asserts worldAB ePair ⟨2, 0⟩ _ (.remove 2) 1
    (by rfl) rfl (by decide) (.inr ⟨by rfl, by rfl⟩) (by decide)

theorem bundle_insert_index_ne_nil (b : ComponentBundle) (c : ComponentBox) :
    (b.insert c).index ≠ [] := by
  unfold ComponentBundle.insert
  cases hb : b.index with
  | nil => simp [insertA]
  | cons p rest =>
    obtain ⟨k, v⟩ := p
    simp only [insertA, hb]
    split <;> simp

theorem foldl_insert_index_ne_nil (cs : List ComponentBox)
    (b : ComponentBundle) (hb : b.index ≠ []) :
    (cs.foldl ComponentBundle.insert b).index ≠ [] := by
  induction cs generalizing b with
  | nil => exact hb
  | cons c rest ih => exact ih _ (bundle_insert_index_ne_nil b c)

theorem ofList_types_ne_empty (c : ComponentBox) (cs : List ComponentBox) :
    (ComponentBundle.ofList (c :: cs)).types ≠ TypeBundle.empty := by
  have hne : (ComponentBundle.ofList (c :: cs)).index ≠ [] := by
    unfold ComponentBundle.ofList
    simp only [List.foldl_cons]
    exact foldl_insert_index_ne_nil cs _ (bundle_insert_index_ne_nil _ _)
  intro he
  cases hk : (ComponentBundle.ofList (c :: cs)).index with
  | nil => exact hne hk
  | cons p rest =>
    have hm : p.1 ∈ (ComponentBundle.ofList (c :: cs)).types.types := by
      unfold ComponentBundle.types
      rw [mem_fromKeys, hk]
      simp
    rw [he] at hm
    simp [TypeBundle.empty] at hm

/-- C8 amended: `spawn` performs no duplicate check — for every bundle
built by the builder that repeats a component type, `spawn` on a fresh
world succeeds instead of returning a `DuplicateType` error (no such
variant exists in the error types). -/
theorem spawn_accepts_duplicates (cs : List ComponentBox)
    (h : ¬ (cs.map ComponentBox.tid).Nodup) :
    (World.spawn World.init (ComponentBundle.ofList cs)).isOk = true := by
  cases cs with
  | nil => simp at h
  | cons c rest =>
    have hne := ofList_types_ne_empty c rest
    have hid : World.init.entities.get_new_id =
        .ok ⟨0, 0⟩ ⟨[⟨0, none⟩], [], 1⟩ := by rfl
    unfold World.spawn
    rw [hid]
    simp only [World.get_archetype_id, World.init, findA, hne, if_neg,
      World.push_archetype, World.update_inclusive_index,
      EntityStore.set_location, Res.isOk]
    simp [EntityStore.set_location, Res.isOk, hne]

/-- Witness for C8 amended at a concrete duplicate bundle. -/
theorem spawn_accepts_duplicates_witness :
    ¬ (([⟨1, 10⟩, ⟨1, 11⟩] : List ComponentBox).map ComponentBox.tid).Nodup ∧
    (World.spawn World.init
      (ComponentBundle.ofList [⟨1, 10⟩, ⟨1, 11⟩])).isOk = true :=
  ⟨by decide, spawn_accepts_duplicates [⟨1, 10⟩, ⟨1, 11⟩] (by decide)⟩

/-- C1 counterexample: no cache entry is created on a query miss. After
spawning one `{1, 2}` entity, the query set `{1}` has no entry in the
inclusive cache, and `get_archetypes_inclusive` returns the empty list even
though archetype 1 matches — the claim's "never empty while a matching
archetype exists" fails, and the `&self` receiver cannot create the entry
the spec promises. -/
theorem inclusive_match_misses_uncached :
    (World.spawn World.init bundleAB).isOk = true ∧
    findA worldAB1.inclusive_index ⟨[1]⟩ = none ∧
    World.get_archetypes_inclusive_ids worldAB1 ⟨[1]⟩ = [] ∧
    World.get_archetypes_inclusive worldAB1 ⟨[1]⟩ = some [] ∧
    (∃ a, worldAB1.archetypes.get? 1 = some a ∧
      a.types.contains ⟨[1]⟩ = true) := by
  refine ⟨by rfl, by rfl, by rfl, by rfl, ⟨_, rfl, by rfl⟩⟩

/-! ### Association-list and list lemmas for the inclusive-cache
invariant -/

theorem get?_some_lt {α : Type} {l : List α} {n : Nat} {a : α}
    (h : l.get? n = some a) : n < l.length := by
  by_contra hn
  rw [not_lt] at hn
  rw [List.get?_eq_none.mpr hn] at h
  cases h

theorem findA_insertA {κ α : Type} [DecidableEq κ] (l : List (κ × α))
    (k q : κ) (v : α) :
    findA (insertA l k v) q = if q = k then some v else findA l q := by
  induction l with
  | nil => simp [insertA, findA]
  | cons p rest ih =>
    obtain ⟨k1, v1⟩ := p
    by_cases hk : k = k1
    · subst hk
      by_cases hq : q = k <;> simp [insertA, findA, hq]
    · by_cases hq : q = k1
      · subst hq
        have : ¬ q = k := fun he => hk he.symm
        simp [insertA, findA, hk, this]
      · simp [insertA, findA, hk, hq, ih]

theorem insertA_of_findA_none {κ α : Type} [DecidableEq κ]
    (l : List (κ × α)) (k : κ) (v : α) (h : findA l k = none) :
    insertA l k v = l ++ [(k, v)] := by
  induction l with
  | nil => simp [insertA]
  | cons p rest ih =>
    obtain ⟨k1, v1⟩ := p
    by_cases hk : k = k1
    · subst hk
      simp [findA] at h
    · simp only [findA, if_neg hk] at h
      simp [insertA, hk, ih h]

theorem findA_some_mem {κ α : Type} [DecidableEq κ] {l : List (κ × α)}
    {k : κ} {v : α} (h : findA l k = some v) : (k, v) ∈ l := by
  induction l with
  | nil => simp [findA] at h
  | cons p rest ih =>
    obtain ⟨k1, v1⟩ := p
    by_cases hk : k = k1
    · subst hk
      simp [findA] at h
      simp [h]
    · simp only [findA, if_neg hk] at h
      exact List.mem_cons_of_mem _ (ih h)

theorem mem_keys_insertA {κ α : Type} [DecidableEq κ] (l : List (κ × α))
    (k k1 : κ) (v : α) :
    k ∈ (insertA l k1 v).map Prod.fst ↔ k = k1 ∨ k ∈ l.map Prod.fst := by
  induction l with
  | nil => simp [insertA]
  | cons p rest ih =>
    obtain ⟨k2, v2⟩ := p
    by_cases hk : k1 = k2
    · subst hk
      simp [insertA]
    · simp [insertA, hk, ih]
      tauto

theorem findA_inclusive_update (l : List (TypeBundle × List Nat))
    (types : TypeBundle) (aid : Nat) (q : TypeBundle) :
    findA (l.map (fun p =>
        if types.contains p.1 then (p.1, p.2 ++ [aid]) else p)) q =
      (findA l q).map
        (fun v => if types.contains q then v ++ [aid] else v) := by
  induction l with
  | nil => simp [findA]
  | cons p rest ih =>
    obtain ⟨k1, v1⟩ := p
    simp only [List.map_cons]
    by_cases hc1 : types.contains k1 = true
    · rw [if_pos hc1]
      by_cases hq : q = k1
      · subst hq
        simp [findA, hc1]
      · simp [findA, hq, ih]
    · rw [if_neg hc1]
      by_cases hq : q = k1
      · subst hq
        simp [findA, hc1]
      · simp [findA, hq, ih]

theorem keys_foldl_enum (ps : List (Nat × ComponentBox))
    (acc : List (TypeId × Nat)) (k : TypeId) :
    k ∈ (ps.foldl (fun a p => insertA a p.2.tid p.1) acc).map Prod.fst ↔
      k ∈ acc.map Prod.fst ∨ k ∈ ps.map (fun p => p.2.tid) := by
  induction ps generalizing acc with
  | nil => simp
  | cons p rest ih =>
    simp only [List.foldl_cons, List.map_cons, List.mem_cons]
    rw [ih, mem_keys_insertA]
    tauto

theorem keys_foldl_insert (cs : List ComponentBox) (b : ComponentBundle)
    (k : TypeId) :
    k ∈ ((cs.foldl ComponentBundle.insert b).index.map Prod.fst) ↔
      k ∈ b.index.map Prod.fst ∨ k ∈ cs.map ComponentBox.tid := by
  induction cs generalizing b with
  | nil => simp
  | cons c rest ih =>
    simp only [List.foldl_cons, List.map_cons, List.mem_cons]
    rw [ih]
    unfold ComponentBundle.insert
    simp only
    rw [mem_keys_insertA]
    tauto

theorem components_foldl_insert (cs : List ComponentBox)
    (b : ComponentBundle) :
    (cs.foldl ComponentBundle.insert b).components = b.components ++ cs := by
  induction cs generalizing b with
  | nil => simp
  | cons c rest ih =>
    simp only [List.foldl_cons, ih]
    unfold ComponentBundle.insert
    simp

/-- The schema of a freshly built archetype equals the bundle's type set
(for bundles built by the public builder). -/
theorem archetype_new_types (cs : List ComponentBox) (e : EntityId) :
    (Archetype.new (ComponentBundle.ofList cs) e).types =
      (ComponentBundle.ofList cs).types := by
  apply TypeBundle.canonical_ext (canonical_fromKeys _) (canonical_fromKeys _)
  intro k
  rw [mem_fromKeys, mem_fromKeys]
  have hcomp : (ComponentBundle.ofList cs).components = cs := by
    unfold ComponentBundle.ofList
    rw [components_foldl_insert]
    rfl
  have henum : cs.enum.map (fun p => p.2.tid) = cs.map ComponentBox.tid := by
    rw [show (fun p : Nat × ComponentBox => p.2.tid) =
      (ComponentBox.tid ∘ Prod.snd) from rfl]
    rw [← List.map_map, List.enum_map_snd]
  constructor
  · intro hk
    have := (keys_foldl_enum _ [] k).mp (by
      unfold Archetype.new at hk
      simpa [hcomp] using hk)
    rcases this with h | h
    · simp at h
    · rw [henum] at h
      exact (keys_foldl_insert cs ComponentBundle.default k).mpr (.inr h)
  · intro hk
    have := (keys_foldl_insert cs ComponentBundle.default k).mp hk
    rcases this with h | h
    · simp [ComponentBundle.default] at h
    · unfold Archetype.new
      simp only [hcomp]
      exact (keys_foldl_enum _ [] k).mpr (.inr (by rw [henum]; exact h))

theorem pushComps_index (cs : List ComponentBox) :
    ∀ (a r : Archetype), Archetype.pushComps a cs = .ok r → r.index = a.index := by
  induction cs with
  | nil =>
    intro a r h
    unfold Archetype.pushComps at h
    cases h
    rfl
  | cons c rest ih =>
    intro a r h
    unfold Archetype.pushComps at h
    split at h
    · cases h
    · split at h
      · cases h
      · split at h
        · cases h
        · exact (ih _ r h).trans rfl

theorem add_ok_types (a : Archetype) (b : ComponentBundle) (e : EntityId)
    (row : Nat) (a1 : Archetype) (h : a.add b e = .ok row a1) :
    a1.types = a.types := by
  unfold Archetype.add at h
  cases hp : a.pushComps b.components with
  | error pe =>
    obtain ⟨p, a3⟩ := pe
    rw [hp] at h
    cases h
  | ok a3 =>
    rw [hp] at h
    cases h
    unfold Archetype.types
    rw [show ({ a3 with entities := a3.entities ++ [e] } : Archetype).index =
      a3.index from rfl]
    rw [pushComps_index _ _ _ hp]

theorem get?_set_self {α : Type} (l : List α) (i : Nat) (a : α)
    (h : i < l.length) : (l.set i a).get? i = some a := by
  rw [List.get?_set_eq]
  cases hx : l.get? i with
  | none => exact absurd h (not_lt.mpr (List.get?_eq_none.mp hx))
  | some x => rfl

theorem get?_set_ne {α : Type} (l : List α) (i j : Nat) (a : α)
    (h : i ≠ j) : (l.set i a).get? j = l.get? j := by
  rw [List.get?_set_ne _ _ h]

theorem world_init_inv : WorldInv World.init := by
  refine ⟨rfl, ?_, ?_⟩
  · intro Q i hmem
    simp [World.init] at hmem
    obtain ⟨hQ, hi⟩ := hmem
    subst hQ
    subst hi
    exact ⟨Archetype.default, rfl, rfl⟩
  · intro Q l hl
    simp [World.init, findA] at hl

theorem spawn_hit_inv (w : World) (aid : Nat) (a a1 : Archetype)
    (s2 : EntityStore) (hget : w.archetypes.get? aid = some a)
    (htypes : a1.types = a.types) (hinv : WorldInv w) :
    WorldInv { index := w.index, archetypes := w.archetypes.set aid a1,
               entities := s2, inclusive_index := w.inclusive_index } := by
  obtain ⟨hA1, hA2, hB⟩ := hinv
  have haid : aid < w.archetypes.length := get?_some_lt hget
  have hsame : ∀ i, ∀ P : TypeBundle → Prop,
      (∃ b, (w.archetypes.set aid a1).get? i = some b ∧ P b.types) ↔
      (∃ b, w.archetypes.get? i = some b ∧ P b.types) := by
    intro i P
    by_cases hi : aid = i
    · subst hi
      rw [get?_set_self _ _ _ haid, hget]
      constructor
      · rintro ⟨b, hb, hPb⟩
        cases hb
        exact ⟨a, rfl, htypes ▸ hPb⟩
      · rintro ⟨b, hb, hPb⟩
        cases hb
        exact ⟨a1, rfl, htypes.symm ▸ hPb⟩
    · rw [get?_set_ne _ _ _ _ hi]
  refine ⟨?_, ?_, ?_⟩
  · show w.index.map Prod.snd = List.range (w.archetypes.set aid a1).length
    rw [List.length_set]
    exact hA1
  · intro Q i hmem
    exact (hsame i (fun t => t = Q)).mpr (hA2 Q i hmem)
  · intro Q l hl
    obtain ⟨hnd, hiff⟩ := hB Q l hl
    refine ⟨hnd, fun i => ?_⟩
    rw [hiff]
    exact (hsame i (fun t => t.contains Q = true)).symm

theorem spawn_push_inv (w : World) (cs : List ComponentBox) (e : EntityId)
    (s2 : EntityStore)
    (hfind : findA w.index (ComponentBundle.ofList cs).types = none)
    (hinv : WorldInv w) :
    WorldInv { index := insertA w.index (ComponentBundle.ofList cs).types
                 w.archetypes.length,
               archetypes := w.archetypes ++
                 [Archetype.new (ComponentBundle.ofList cs) e],
               entities := s2,
               inclusive_index := insertA
                 (w.inclusive_index.map (fun p =>
                   if (ComponentBundle.ofList cs).types.contains p.1 then
                     (p.1, p.2 ++ [w.archetypes.length]) else p))
                 (ComponentBundle.ofList cs).types
                 (((insertA w.index (ComponentBundle.ofList cs).types
                     w.archetypes.length).filter (fun p =>
                       p.1.contains (ComponentBundle.ofList cs).types)).map
                   Prod.snd) } := by
  obtain ⟨hA1, hA2, hB⟩ := hinv
  set T := (ComponentBundle.ofList cs).types with hT
  set n := w.archetypes.length with hn
  set newA := Archetype.new (ComponentBundle.ofList cs) e with hnewA
  have hins : insertA w.index T n = w.index ++ [(T, n)] :=
    insertA_of_findA_none _ _ _ hfind
  have hnewTypes : newA.types = T := archetype_new_types cs e
  have hA1new : ((w.index ++ [(T, n)]).map Prod.snd) =
      List.range (w.archetypes ++ [newA]).length := by
    simp [hA1, List.range_succ, hn]
  have hgetOld : ∀ i, i < n →
      (w.archetypes ++ [newA]).get? i = w.archetypes.get? i := by
    intro i hi
    exact List.get?_append hi
  have hgetNew : (w.archetypes ++ [newA]).get? n = some newA :=
    List.get?_concat_length w.archetypes newA
  have hA2new : ∀ Q i, (Q, i) ∈ w.index ++ [(T, n)] →
      ∃ a, (w.archetypes ++ [newA]).get? i = some a ∧ a.types = Q := by
    intro Q i hmem
    rcases List.mem_append.mp hmem with hmem | hmem
    · obtain ⟨b, hb, hbt⟩ := hA2 Q i hmem
      refine ⟨b, ?_, hbt⟩
      rw [hgetOld i (get?_some_lt hb)]
      exact hb
    · simp only [List.mem_singleton, Prod.mk.injEq] at hmem
      obtain ⟨hQ, hi⟩ := hmem
      subst hQ
      subst hi
      exact ⟨newA, hgetNew, hnewTypes⟩
  have hcomplete : ∀ i a, (w.archetypes ++ [newA]).get? i = some a →
      (a.types, i) ∈ w.index ++ [(T, n)] := by
    intro i a hga
    have hi : i < n + 1 := by
      have h1 := get?_some_lt hga
      simpa [hn] using h1
    rcases Nat.lt_or_ge i n with hlt | hge
    · have himem : i ∈ w.index.map Prod.snd := by
        rw [hA1]
        exact List.mem_range.mpr hlt
      obtain ⟨p, hp, hps⟩ := List.mem_map.mp himem
      obtain ⟨Qp, ip⟩ := p
      simp only at hps
      subst hps
      obtain ⟨b, hb, hbt⟩ := hA2 Qp ip hp
      rw [hgetOld ip hlt, hb] at hga
      cases hga
      rw [← hbt] at hp
      exact List.mem_append_left _ hp
    · have hieq : i = n := by omega
      subst hieq
      rw [hgetNew] at hga
      cases hga
      rw [hnewTypes]
      exact List.mem_append_right _ (by simp)
  have hids_mem : ∀ i,
      i ∈ ((w.index ++ [(T, n)]).filter (fun p => p.1.contains T)).map
        Prod.snd ↔
      ∃ a, (w.archetypes ++ [newA]).get? i = some a ∧
        a.types.contains T = true := by
    intro i
    constructor
    · intro hi
      obtain ⟨p, hp, hps⟩ := List.mem_map.mp hi
      obtain ⟨hpmem, hpcond⟩ := List.mem_filter.mp hp
      obtain ⟨Qp, ip⟩ := p
      simp only at hps
      subst hps
      obtain ⟨b, hb, hbt⟩ := hA2new Qp ip hpmem
      refine ⟨b, hb, ?_⟩
      rw [hbt]
      exact hpcond
    · rintro ⟨a, hga, hcont⟩
      exact List.mem_map.mpr ⟨(a.types, i),
        List.mem_filter.mpr ⟨hcomplete i a hga, hcont⟩, rfl⟩
  have hids_nodup :
      (((w.index ++ [(T, n)]).filter (fun p => p.1.contains T)).map
        Prod.snd).Nodup := by
    have hsub : List.Sublist
        (((w.index ++ [(T, n)]).filter (fun p => p.1.contains T)).map
          Prod.snd)
        ((w.index ++ [(T, n)]).map Prod.snd) :=
      (List.filter_sublist _).map Prod.snd
    rw [hA1new] at hsub
    exact (List.nodup_range _).sublist hsub
  refine ⟨?_, ?_, ?_⟩
  · show (insertA w.index T n).map Prod.snd = _
    rw [hins]
    exact hA1new
  · intro Q i hmem
    rw [hins] at hmem
    exact hA2new Q i hmem
  · intro Q l hl
    rw [findA_insertA] at hl
    by_cases hQ : Q = T
    · subst hQ
      rw [if_pos rfl] at hl
      rw [hins] at hl
      simp only [Option.some.injEq] at hl
      subst hl
      exact ⟨hids_nodup, hids_mem⟩
    · rw [if_neg hQ, findA_inclusive_update] at hl
      cases hfq : findA w.inclusive_index Q with
      | none => rw [hfq] at hl; cases hl
      | some l0 =>
        rw [hfq] at hl
        simp only [Option.map_some', Option.some.injEq] at hl
        obtain ⟨hnd0, hiff0⟩ := hB Q l0 hfq
        have hbound : ∀ i, i ∈ l0 → i < n := by
          intro i hi
          obtain ⟨b, hb, _⟩ := (hiff0 i).mp hi
          exact get?_some_lt hb
        by_cases hc : T.contains Q = true
        · rw [if_pos hc] at hl
          subst hl
          constructor
          · rw [List.nodup_append]
            refine ⟨hnd0, List.nodup_singleton n, ?_⟩
            intro i hi hin
            simp only [List.mem_singleton] at hin
            subst hin
            exact absurd (hbound _ hi) (lt_irrefl _)
          · intro i
            rw [List.mem_append, List.mem_singleton]
            constructor
            · rintro (hi | hi)
              · obtain ⟨b, hb, hbc⟩ := (hiff0 i).mp hi
                refine ⟨b, ?_, hbc⟩
                rw [hgetOld i (get?_some_lt hb)]
                exact hb
              · subst hi
                refine ⟨newA, hgetNew, ?_⟩
                rw [hnewTypes]
                exact hc
            · rintro ⟨a, hga, hcont⟩
              have hi : i < n + 1 := by
                have h1 := get?_some_lt hga
                simpa [hn] using h1
              rcases Nat.lt_or_ge i n with hlt | hge
              · left
                rw [hgetOld i hlt] at hga
                exact (hiff0 i).mpr ⟨a, hga, hcont⟩
              · right
                omega
        · rw [if_neg hc] at hl
          subst hl
          refine ⟨hnd0, fun i => ?_⟩
          rw [hiff0]
          constructor
          · rintro ⟨b, hb, hbc⟩
            refine ⟨b, ?_, hbc⟩
            rw [hgetOld i (get?_some_lt hb)]
            exact hb
          · rintro ⟨a, hga, hcont⟩
            have hi : i < n + 1 := by
              have h1 := get?_some_lt hga
              simpa [hn] using h1
            rcases Nat.lt_or_ge i n with hlt | hge
            · rw [hgetOld i hlt] at hga
              exact ⟨a, hga, hcont⟩
            · have hieq : i = n := by omega
              subst hieq
              rw [hgetNew] at hga
              cases hga
              rw [hnewTypes] at hcont
              exact absurd hcont hc

theorem spawn_ok_inv (w : World) (cs : List ComponentBox) (e : EntityId)
    (w2 : World) (hs : World.spawn w (ComponentBundle.ofList cs) = .ok e w2)
    (hinv : WorldInv w) : WorldInv w2 := by
  unfold World.spawn at hs
  cases hid : w.entities.get_new_id with
  | panic p s => rw [hid] at hs; cases hs
  | err er s => rw [hid] at hs; cases hs
  | ok entity s =>
    rw [hid] at hs
    simp only [World.get_archetype_id] at hs
    cases hfind : findA w.index (ComponentBundle.ofList cs).types with
    | some aid =>
      rw [show findA ({ w with entities := s } : World).index
          (ComponentBundle.ofList cs).types = some aid from hfind] at hs
      dsimp only at hs
      cases hget : w.archetypes.get? aid with
      | none =>
        rw [show ({ w with entities := s } : World).archetypes.get? aid =
          none from hget] at hs
        cases hs
      | some a =>
        rw [show ({ w with entities := s } : World).archetypes.get? aid =
          some a from hget] at hs
        dsimp only at hs
        cases hadd : a.add (ComponentBundle.ofList cs) entity with
        | panic p a1 => rw [hadd] at hs; cases hs
        | err er a1 => exact er.elim
        | ok row a1 =>
          rw [hadd] at hs
          dsimp only at hs
          cases hset : s.set_location entity ⟨aid, row⟩ with
          | panic p s2 => rw [hset] at hs; cases hs
          | err er s2 => rw [hset] at hs; cases hs
          | ok old s2 =>
            rw [hset] at hs
            dsimp only at hs
            cases hs
            exact spawn_hit_inv w aid a a1 s2 hget
              (add_ok_types a _ _ row a1 hadd) hinv
    | none =>
      rw [show findA ({ w with entities := s } : World).index
          (ComponentBundle.ofList cs).types = none from hfind] at hs
      simp only [World.push_archetype, World.update_inclusive_index] at hs
      cases hset : s.set_location entity ⟨w.archetypes.length, 0⟩ with
      | panic p s2 => rw [hset] at hs; cases hs
      | err er s2 => rw [hset] at hs; cases hs
      | ok old s2 =>
        rw [hset] at hs
        dsimp only at hs
        cases hs
        exact spawn_push_inv w cs e s2 hfind hinv

theorem reachable_inv (w : World) (h : Reachable w) : WorldInv w := by
  induction h with
  | init => exact world_init_inv
  | spawn w cs e w2 hr hs ih => exact spawn_ok_inv w cs e w2 hs ih
  | migrate w e op w2 hr hs ih =>
    have hno := migrate_no_ok w e op
    rw [hs] at hno
    cases hno
  | kill w e w2 hr hs ih =>
    have hno := kill_no_ok w e
    rw [hs] at hno
    cases hno

/-- C1 amended: the inclusive match is a pure cache read. In every world
reachable by successful operations, a cached query set maps to exactly the
archetypes whose schema contains it, each exactly once (P6 holds for cached
entries); but a query set with no cache entry yields the empty list — no
entry is created on a miss (`get_archetypes_inclusive` takes `&self`), so
the result can be empty while a matching archetype exists. -/
theorem inclusive_match_cached_exact (w : World) (Q : TypeBundle)
    (h : Reachable w) :
    (∀ l, findA w.inclusive_index Q = some l →
      l.Nodup ∧ ∀ i, i ∈ l ↔ ∃ a, w.archetypes.get? i = some a ∧
        a.types.contains Q = true) ∧
    (findA w.inclusive_index Q = none →
      World.get_archetypes_inclusive_ids w Q = []) := by
  have hinv := reachable_inv w h
  refine ⟨fun l hl => hinv.2.2 Q l hl, fun hn => ?_⟩
  simp [World.get_archetypes_inclusive_ids, hn]

/-- Witness for C1 amended: in the world with archetypes `{}` and `{1}`,
the cached query `{1}` yields exactly archetype 1. -/
theorem inclusive_match_cached_exact_witness :
    Reachable worldA ∧
    (([1] : List Nat).Nodup ∧ ∀ i, i ∈ ([1] : List Nat) ↔
      ∃ a, worldA.archetypes.get? i = some a ∧
        a.types.contains ⟨[1]⟩ = true) := by
  have hr : Reachable worldA :=
    Reachable.spawn World.init [boxA] eA worldA Reachable.init (by rfl)
  exact ⟨hr, (inclusive_match_cached_exact worldA ⟨[1]⟩ hr).1 [1] (by rfl)⟩

end Leto
